import Mathlib

set_option maxHeartbeats 1000000

/-!
Shallow embedding of src/player.c from pianobar-save.

The player worker is modelled as a deterministic trace machine.  External
library results (demuxer reads, decoder output counts, probe successes,
filesystem checks) are supplied as environment values; everything the code
itself computes (control flow, packet routing, rescaling, flags, timestamps)
is translated directly from the C source.  Machine integers are modelled as
Int (timestamps are int64_t in the source; no arithmetic in the translated
code can overflow 64 bits on the inputs considered), seconds values
(song_played, song_duration) as rationals.
-/

namespace PianobarSave

/-- FFmpeg error code AVERROR_EOF, i.e. -MKTAG(0x45, 0x4f, 0x46, 0x20). -/
def AVERROR_EOF : Int := -541478725

/-- FFmpeg error code AVERROR_INVALIDDATA, i.e. -MKTAG(0x49, 0x4e, 0x44, 0x41). -/
def AVERROR_INVALIDDATA : Int := -1094995529

/-- FFmpeg error code AVERROR(EAGAIN) on Linux. -/
def AVERROR_EAGAIN : Int := -11

/-- AV_NOPTS_VALUE, the int64_t sentinel 0x8000000000000000. -/
def AV_NOPTS_VALUE : Int := -9223372036854775808

/-- AVRational, a num/den pair. -/
structure AVRational where
  num : Int
  den : Int
deriving DecidableEq

/-- av_q2d: convert an AVRational to a (here: exact rational) number. -/
def av_q2d (a : AVRational) : ℚ := (a.num : ℚ) / (a.den : ℚ)

/-- av_rescale_q: rescale a timestamp from time base bq to time base cq.
The exact rounding mode of the library is irrelevant to the claims; the
quotient is modelled with integer division. -/
def av_rescale_q (a : Int) (bq cq : AVRational) : Int :=
  (a * bq.num * cq.den) / (bq.den * cq.num)

/-- The fields of AVPacket that the translated code reads or writes. -/
structure AVPacket where
  stream_index : Int
  pts : Int
  dts : Int
deriving DecidableEq

/-- A packet as left by av_init_packet, and as av_read_frame leaves pkt on
EOF or error (the library blanks the packet): stream_index 0 and
pts = dts = AV_NOPTS_VALUE. -/
def blankPacket : AVPacket :=
  { stream_index := 0, pts := AV_NOPTS_VALUE, dts := AV_NOPTS_VALUE }

/-- Result of one av_read_frame call, supplied by the environment.
ok carries the packet and the number of frames the decoder will emit for
it before reporting EAGAIN; eof carries the number of delayed frames the
decoder emits while draining after the NULL flush packet. -/
inductive ReadResult
  | ok (pkt : AVPacket) (frames : Nat)
  | eof (flushFrames : Nat)
  | err (code : Int)
deriving DecidableEq

/-- Observable actions of the worker, in program order. -/
inductive Ev
  | seek (streamIdx : Int) (ts : Int)
  | send (p : AVPacket)
  | flushDec
  | mux (p : AVPacket)
  | skipPkt (p : AVPacket)
  | frame
  | closeDevice
  | freeGraph
  | closeDecoder
  | closeDemuxer
  | writeTrailer
  | transcodeFfmpeg
  | transcodeLame
deriving DecidableEq

/-- The interrupt-related session state read and written by intCb
(player.c lines 126-140).  The interrupted counter is written by the
control thread with the values 0, 1, 2, ...; it is modelled as Nat. -/
structure IntState where
  interrupted : Nat
  doQuit : Bool
deriving DecidableEq

/-- intCb (player.c lines 126-140): the blocking-abort hook.  Returns the
int handed back to the library (1 aborts the blocking call, 0 continues)
together with the updated session state. -/
def intCb (s : IntState) : Int × IntState :=
  if s.interrupted > 1 then
    (1, { s with doQuit := true })
  else if s.interrupted ≠ 0 then
    (1, { s with interrupted := 0 })
  else
    (0, s)

/-- The tag-string sanitization loop used for artist and album in
openStream (player.c lines 230-255) and for artist, album and title in
BarPlayerThread (lines 602-641): a double quote becomes backslash quote,
a slash becomes a space, every other byte is copied. -/
def sanitizeTagList : List Char → List Char
  | [] => []
  | c :: cs =>
    if c = '"' then '\\' :: c :: sanitizeTagList cs
    else if c = '/' then ' ' :: sanitizeTagList cs
    else c :: sanitizeTagList cs

/-- String version of the tag sanitization loop. -/
def sanitizeTag (s : String) : String := String.mk (sanitizeTagList s.data)

/-- The filename sanitization loop in openStream (player.c lines 268-275):
a slash becomes a space and a dollar sign becomes the letter S; every
other byte (a double quote included) is left unchanged. -/
def sanitizeFilenameList : List Char → List Char
  | [] => []
  | c :: cs =>
    if c = '/' then ' ' :: sanitizeFilenameList cs
    else if c = '$' then 'S' :: sanitizeFilenameList cs
    else c :: sanitizeFilenameList cs

/-- String version of the filename sanitization loop. -/
def sanitizeFilename (s : String) : String := String.mk (sanitizeFilenameList s.data)

/-- The per-character rule of the filename sanitization, as a total map. -/
def sanitizeFilenameChar (c : Char) : Char :=
  if c = '/' then ' ' else if c = '$' then 'S' else c

/-- Modelled from the spec: the sanitization rules of section 6 of the
specification as they apply to tag strings that are not filenames (slash
to space, double quote escaped, other bytes preserved).  Used to compare
the code against the stated rules. -/
def specSanitizeChar (c : Char) : List Char :=
  if c = '/' then [' ']
  else if c = '"' then ['\\', '"']
  else [c]

/-- Modelled from the spec: tag sanitization as the spec states it. -/
def specTagSanitize (s : String) : String := String.mk (s.data.flatMap specSanitizeChar)

/-- Modelled from the spec: the sanitization rules of section 6 as they
apply to filename components (slash to space, double quote escaped,
dollar to S, other bytes preserved). -/
def specFileSanitizeChar (c : Char) : List Char :=
  if c = '/' then [' ']
  else if c = '"' then ['\\', '"']
  else if c = '$' then ['S']
  else [c]

/-- Modelled from the spec: filename sanitization as the spec states it. -/
def specFileSanitize (s : String) : String := String.mk (s.data.flatMap specFileSanitizeChar)

/-- The session fields of player_t that the translated code touches.
The four Bool fields at the end record which library resources are
currently open (aoDev, fgraph, cctx, fctx pointers being non-NULL). -/
structure Player where
  interrupted : Nat
  doQuit : Bool
  lastTimestamp : Int
  songPlayed : ℚ
  songDuration : ℚ
  save_file : Bool
  streamIdx : Int
  tmp_filename : String
  save_complete : String
  aoDev : Bool
  fgraph : Bool
  cctx : Bool
  fctx : Bool
deriving DecidableEq

/-- The settings fields consumed by the translated code. -/
structure Settings where
  save_dir : Option String
deriving DecidableEq

/-- Song metadata supplied by the caller. -/
structure Meta where
  artist : String
  album : String
  title : String
deriving DecidableEq

/-- finish (player.c lines 539-553): release the output device, the
filter graph, the decoder and the demuxer, in that order.  ao_close on a
NULL device is a no-op in libao; the three explicit NULL guards are in
the source.  Returns the updated session and the close actions taken. -/
def finish (p : Player) : Player × List Ev :=
  let e1 := if p.aoDev then [Ev.closeDevice] else []
  let e2 := if p.fgraph then [Ev.freeGraph] else []
  let e3 := if p.cctx then [Ev.closeDecoder] else []
  let e4 := if p.fctx then [Ev.closeDemuxer] else []
  ({ p with aoDev := false, fgraph := false, cctx := false, fctx := false },
   e1 ++ e2 ++ e3 ++ e4)

/-- The canonical release order of finish. -/
def finishOrder : List Ev := [Ev.closeDevice, Ev.freeGraph, Ev.closeDecoder, Ev.closeDemuxer]

/-- Which close action applies to a resource that is open in p. -/
def resOpen (p : Player) : Ev → Bool
  | Ev.closeDevice => p.aoDev
  | Ev.freeGraph => p.fgraph
  | Ev.closeDecoder => p.cctx
  | Ev.closeDemuxer => p.fctx
  | _ => false

/-- The per-attempt environment values consumed by openStream: which
library calls succeed, the probed stream properties, and the filesystem
state.  avio_open_ok and write_header_ok are the results of avio_open2
and avformat_write_header; the source never inspects either. -/
structure OpenEnv where
  open_ok : Bool
  find_info_ok : Bool
  best_stream : Option Int
  codec_alloc_ok : Bool
  params_ok : Bool
  decoder_found : Bool
  codec_open_ok : Bool
  duration : Int
  st_time_base : AVRational
  stream0_codec_tb : AVRational
  target_exists : Bool
  avio_open_ok : Bool
  write_header_ok : Bool
deriving DecidableEq

/-- Conjunction of the openStream guards that can return false
(player.c lines 155-194). -/
def openSuccess (env : OpenEnv) : Bool :=
  env.open_ok && env.find_info_ok && env.best_stream.isSome &&
    env.codec_alloc_ok && env.params_ok && env.decoder_found && env.codec_open_ok

/-- The save-directory path normalization (player.c lines 222-226): the
C code checks whether the last byte of save_dir is a slash and appends
one otherwise. -/
def pathWithSlash (d : String) : String :=
  if d.data.getLast? = some '/' then d else d ++ "/"

/-- Overwrite the last three bytes of a path with mp3
(player.c lines 301-303). -/
def replaceLast3mp3 (s : String) : String :=
  String.mk (s.data.dropLast.dropLast.dropLast ++ ['m', 'p', '3'])

/-- Result of openStream: the bool the function returns, the updated
session, and the seek actions performed. -/
structure OpenOut where
  success : Bool
  p : Player
  events : List Ev
deriving DecidableEq

/-- openStream (player.c lines 142-337).  Guard failures return false
(softfail) leaving the partially updated session behind.  On success the
demuxer is sought to lastTimestamp when it is positive, songPlayed is
reset to 0, songDuration is computed from the stream duration, and the
save-path block derives save_file, tmp_filename and save_complete.  The
muxer-setup results (avio_open2, avformat_write_header) are not
inspected by the source and therefore do not influence anything here. -/
def openStream (settings : Settings) (meta : Meta) (env : OpenEnv) (p0 : Player) : OpenOut :=
  if ¬env.open_ok then ⟨false, p0, []⟩ else
  let p1 := { p0 with fctx := true }
  if ¬env.find_info_ok then ⟨false, p1, []⟩ else
  match env.best_stream with
  | none => ⟨false, p1, []⟩
  | some idx =>
    let p2 := { p1 with streamIdx := idx }
    if ¬env.codec_alloc_ok then ⟨false, p2, []⟩ else
    let p3 := { p2 with cctx := true }
    if ¬env.params_ok then ⟨false, p3, []⟩ else
    if ¬env.decoder_found then ⟨false, p3, []⟩ else
    if ¬env.codec_open_ok then ⟨false, p3, []⟩ else
    let seekEvents := if 0 < p3.lastTimestamp then [Ev.seek idx p3.lastTimestamp] else []
    let p4 := { p3 with
      songPlayed := 0
      songDuration := av_q2d env.st_time_base * (env.duration : ℚ) }
    match settings.save_dir with
    | none => ⟨true, { p4 with save_file := false }, seekEvents⟩
    | some dir =>
      let save_path :=
        pathWithSlash dir ++ sanitizeTag meta.artist ++ "/" ++ sanitizeTag meta.album ++ "/"
      let save_filename := sanitizeFilename (meta.title ++ ".aac")
      let tmp_filename := "/tmp/pianobar/" ++ save_filename
      let save_complete := replaceLast3mp3 (save_path ++ save_filename)
      ⟨true,
       { p4 with
          save_file := ¬env.target_exists
          tmp_filename := tmp_filename
          save_complete := save_complete },
       seekEvents⟩

/-- The per-attempt playback configuration assembled by openStream: the
selected stream index, the save flag, the id of the muxer output stream
(avformat_new_stream leaves id at 0), the codec time base of input
stream 0 (the rescale source in player.c lines 471-477), and the muxer
output time base, which line 327 copies from the selected stream. -/
structure PlayCfg where
  streamIdx : Int
  save_file : Bool
  ostId : Int
  inTb : AVRational
  outTb : AVRational
  stTb : AVRational
deriving DecidableEq

/-- The rescaled copy written to the muxer (player.c lines 470-477). -/
def rescalePkt (cfg : PlayCfg) (p : AVPacket) : AVPacket :=
  { stream_index := cfg.ostId
    pts := av_rescale_q p.pts cfg.inTb cfg.outTb
    dts := av_rescale_q p.dts cfg.inTb cfg.outTb }

/-- The muxer write performed when save_file is set (player.c 469-479). -/
def muxEvts (cfg : PlayCfg) (p : AVPacket) : List Ev :=
  if cfg.save_file then [Ev.mux (rescalePkt cfg p)] else []

/-- Result of play: the trace of actions, the returned int, and the final
songPlayed and lastTimestamp session fields. -/
structure PlayResult where
  events : List Ev
  ret : Int
  songPlayed : ℚ
  lastTimestamp : Int
deriving DecidableEq

/-- The play loop (player.c lines 443-531), driven by the list of
av_read_frame results.  Each iteration in FILL mode reads a packet:
on EOF the decoder is flushed with a NULL packet, the muxer write block
still runs on the blanked packet, the decoder drains, and lines 527-528
update songPlayed and lastTimestamp from the blanked packet; a packet of
another stream is released and skipped before the write block; a read
error on the selected stream breaks out of the loop (a blanked error
packet whose stream_index 0 differs from the selected index is instead
skipped like a foreign packet, because line 452 tests the stream index
before line 456 tests ret); a good packet is sent to the decoder, then
written (rescaled) to the muxer when saving, then decoded frames are
pulled until EAGAIN, and songPlayed and lastTimestamp are updated from
the packet. -/
def playLoop (cfg : PlayCfg) : List ReadResult → Int → ℚ → Int → PlayResult
  | [], ret, sp, lt => ⟨[], ret, sp, lt⟩
  | ReadResult.eof ff :: _, _, _, _ =>
    ⟨Ev.flushDec :: (muxEvts cfg blankPacket ++ List.replicate ff Ev.frame),
     AVERROR_EOF,
     av_q2d cfg.stTb * (blankPacket.pts : ℚ),
     blankPacket.pts⟩
  | ReadResult.err c :: rest, _, sp, lt =>
    if blankPacket.stream_index = cfg.streamIdx then
      ⟨[], c, sp, lt⟩
    else
      let r := playLoop cfg rest c sp lt
      ⟨Ev.skipPkt blankPacket :: r.events, r.ret, r.songPlayed, r.lastTimestamp⟩
  | ReadResult.ok p n :: rest, _, sp, lt =>
    if p.stream_index = cfg.streamIdx then
      let r := playLoop cfg rest AVERROR_EAGAIN (av_q2d cfg.stTb * (p.pts : ℚ)) p.pts
      ⟨Ev.send p :: (muxEvts cfg p ++ (List.replicate n Ev.frame ++ r.events)),
       r.ret, r.songPlayed, r.lastTimestamp⟩
    else
      let r := playLoop cfg rest 0 sp lt
      ⟨Ev.skipPkt p :: r.events, r.ret, r.songPlayed, r.lastTimestamp⟩

/-- play (player.c lines 428-537): ret starts at 0; songPlayed and
lastTimestamp enter with their current session values. -/
def play (cfg : PlayCfg) (reads : List ReadResult) (sp : ℚ) (lt : Int) : PlayResult :=
  playLoop cfg reads 0 sp lt

/-- The environment of one iteration of the retry loop in BarPlayerThread:
the openStream environment, the openFilter and openDevice results, the
av_read_frame results for play, and the interrupted and doQuit session
values as the control thread and intCb have left them by the time the
retry condition on line 573 is evaluated. -/
structure AttemptEnv where
  openEnv : OpenEnv
  filterOk : Bool
  deviceOk : Bool
  reads : List ReadResult
  interruptedAfter : Nat
  doQuitAfter : Bool
deriving DecidableEq

/-- The playback configuration for an attempt whose openStream succeeded
with save flag sf and selected stream idx. -/
def mkPlayCfg (env : OpenEnv) (sf : Bool) (idx : Int) : PlayCfg :=
  { streamIdx := idx
    save_file := sf
    ostId := 0
    inTb := env.stream0_codec_tb
    outTb := env.st_time_base
    stTb := env.st_time_base }

/-- The openStream call of one attempt. -/
def attemptOpen (s : Settings) (m : Meta) (a : AttemptEnv) (p : Player) : OpenOut :=
  openStream s m a.openEnv p

/-- The play call of one attempt (only meaningful when openStream,
openFilter and openDevice succeeded). -/
def attemptPlay (s : Settings) (m : Meta) (a : AttemptEnv) (p : Player) : PlayResult :=
  let o := attemptOpen s m a p
  play (mkPlayCfg a.openEnv o.p.save_file o.p.streamIdx) a.reads o.p.songPlayed o.p.lastTimestamp

/-- The session state after play returns in one attempt: filter graph and
device were opened, songPlayed and lastTimestamp carry the values play
left, and interrupted and doQuit are as the environment reports them. -/
def attemptPost (s : Settings) (m : Meta) (a : AttemptEnv) (p : Player) : Player :=
  let o := attemptOpen s m a p
  let r := attemptPlay s m a p
  { o.p with
      fgraph := true
      aoDev := true
      songPlayed := r.songPlayed
      lastTimestamp := r.lastTimestamp
      interrupted := a.interruptedAfter
      doQuit := a.doQuitAfter }

/-- Result of the worker: final session, trace, and PLAYER_RET value. -/
inductive PlayerRet
  | retOk
  | softfail
  | hardfail
deriving DecidableEq

/-- Result record of the retry loop and of the whole worker. -/
structure ThreadOut where
  p : Player
  events : List Ev
  pret : PlayerRet
deriving DecidableEq

/-- The do/while retry loop of BarPlayerThread (player.c lines 566-584).
Each iteration: openStream; on failure pret becomes SOFTFAIL and the loop
ends after finish.  Otherwise, if openFilter or openDevice failed, pret
becomes HARDFAIL and the loop ends after finish.  Otherwise play runs and
the loop repeats exactly when play returned AVERROR_INVALIDDATA and
interrupted is zero (line 573); finish runs at the bottom of every
iteration (line 583). -/
def threadLoop (s : Settings) (m : Meta) :
    List AttemptEnv → Player → PlayerRet → ThreadOut
  | [], p, pret => ⟨p, [], pret⟩
  | a :: rest, p, pret =>
    let o := attemptOpen s m a p
    if o.success then
      if a.filterOk && a.deviceOk then
        let r := attemptPlay s m a p
        let p2 := attemptPost s m a p
        let pf := finish p2
        if r.ret = AVERROR_INVALIDDATA ∧ p2.interrupted = 0 then
          let t := threadLoop s m rest pf.1 pret
          ⟨t.p, o.events ++ r.events ++ pf.2 ++ t.events, t.pret⟩
        else
          ⟨pf.1, o.events ++ r.events ++ pf.2, pret⟩
      else
        let pf := finish o.p
        ⟨pf.1, o.events ++ pf.2, PlayerRet.hardfail⟩
    else
      let pf := finish o.p
      ⟨pf.1, o.events ++ pf.2, PlayerRet.softfail⟩

/-- BarPlayerThread (player.c lines 559-657): run the retry loop with
pret initialized to PLAYER_RET_OK; afterwards, when save_file is set and
doQuit is not, write the muxer trailer and invoke the two external
transcode commands (lines 588-654). -/
def barPlayerThread (s : Settings) (m : Meta) (attempts : List AttemptEnv) (p0 : Player) :
    ThreadOut :=
  let t := threadLoop s m attempts p0 PlayerRet.retOk
  if t.p.save_file && !t.p.doQuit then
    ⟨t.p, t.events ++ [Ev.writeTrailer, Ev.transcodeFfmpeg, Ev.transcodeLame], t.pret⟩
  else
    t

/-- Packets carried by send actions, in order. -/
def sentPackets (l : List Ev) : List AVPacket :=
  l.filterMap fun e => match e with | Ev.send p => some p | _ => none

/-- Packets carried by mux actions, in order. -/
def muxedPackets (l : List Ev) : List AVPacket :=
  l.filterMap fun e => match e with | Ev.mux p => some p | _ => none

/-- Packets carried by skip actions, in order. -/
def skippedPackets (l : List Ev) : List AVPacket :=
  l.filterMap fun e => match e with | Ev.skipPkt p => some p | _ => none

/-- Number of occurrences of one action in a trace. -/
def countEv (target : Ev) : List Ev → Nat
  | [] => 0
  | e :: r => (if e = target then 1 else 0) + countEv target r

/-- Actions that can be emitted inside the retry loop (openStream, play,
finish); the trailer write and the transcode invocations are not among
them. -/
def isLoopEv : Ev → Bool
  | Ev.writeTrailer => false
  | Ev.transcodeFfmpeg => false
  | Ev.transcodeLame => false
  | _ => true

/-- The packets the play loop sends to the decoder, computed from the
read results alone: the selected-stream packets read before the loop
terminates. -/
def expectedSent (cfg : PlayCfg) : List ReadResult → List AVPacket
  | [] => []
  | ReadResult.eof _ :: _ => []
  | ReadResult.err _ :: rest =>
    if blankPacket.stream_index = cfg.streamIdx then [] else expectedSent cfg rest
  | ReadResult.ok p _ :: rest =>
    if p.stream_index = cfg.streamIdx then p :: expectedSent cfg rest
    else expectedSent cfg rest

/-- The packets the play loop releases and skips, computed from the read
results alone: foreign-stream packets, and blanked error packets whose
stream_index differs from the selected index. -/
def expectedSkipped (cfg : PlayCfg) : List ReadResult → List AVPacket
  | [] => []
  | ReadResult.eof _ :: _ => []
  | ReadResult.err _ :: rest =>
    if blankPacket.stream_index = cfg.streamIdx then []
    else blankPacket :: expectedSkipped cfg rest
  | ReadResult.ok p _ :: rest =>
    if p.stream_index = cfg.streamIdx then expectedSkipped cfg rest
    else p :: expectedSkipped cfg rest

/-- Whether the loop reaches the EOF flush, computed from the reads. -/
def expectedFlush (cfg : PlayCfg) : List ReadResult → Nat
  | [] => 0
  | ReadResult.eof _ :: _ => 1
  | ReadResult.err _ :: rest =>
    if blankPacket.stream_index = cfg.streamIdx then 0 else expectedFlush cfg rest
  | ReadResult.ok _ _ :: rest => expectedFlush cfg rest

/-- Trace predicate: every muxer write immediately follows the decoder
send (or flush) of the same loop iteration and carries the rescaled
packet; no muxer write appears anywhere else. -/
def teeOk (cfg : PlayCfg) : List Ev → Bool
  | Ev.send p :: Ev.mux q :: rest => decide (q = rescalePkt cfg p) && teeOk cfg rest
  | Ev.flushDec :: Ev.mux q :: rest => decide (q = rescalePkt cfg blankPacket) && teeOk cfg rest
  | Ev.send _ :: _ => false
  | Ev.flushDec :: _ => false
  | Ev.mux _ :: _ => false
  | _ :: rest => teeOk cfg rest
  | [] => true

/-- Trace predicate for the ordering the claim states: every muxer write
immediately precedes the decoder send of the same packet. -/
def teeBeforeSendOk (cfg : PlayCfg) : List Ev → Bool
  | Ev.mux q :: Ev.send p :: rest => decide (q = rescalePkt cfg p) && teeBeforeSendOk cfg rest
  | Ev.mux _ :: _ => false
  | Ev.send _ :: _ => false
  | _ :: rest => teeBeforeSendOk cfg rest
  | [] => true

/-- Actions that the play loop can emit. -/
def isPlayEv : Ev → Bool
  | Ev.send _ => true
  | Ev.flushDec => true
  | Ev.mux _ => true
  | Ev.skipPkt _ => true
  | Ev.frame => true
  | _ => false

/- Concrete fixtures used by witnesses and counterexamples. -/

/-- A 1/44100 stream time base. -/
def tbEx : AVRational := ⟨1, 44100⟩

/-- A concrete playback configuration with saving enabled. -/
def cfgEx : PlayCfg :=
  { streamIdx := 0, save_file := true, ostId := 0
    inTb := ⟨1, 90000⟩, outTb := tbEx, stTb := tbEx }

/-- A concrete selected-stream packet. -/
def pktEx : AVPacket := { stream_index := 0, pts := 1000, dts := 900 }

/-- A concrete read sequence: one good packet, then EOF. -/
def readsEx : List ReadResult := [ReadResult.ok pktEx 1, ReadResult.eof 0]

/-- An openStream environment in which every library call succeeds. -/
def openEnvOk : OpenEnv :=
  { open_ok := true, find_info_ok := true, best_stream := some 0
    codec_alloc_ok := true, params_ok := true, decoder_found := true
    codec_open_ok := true, duration := 441000, st_time_base := tbEx
    stream0_codec_tb := ⟨1, 90000⟩, target_exists := false
    avio_open_ok := true, write_header_ok := true }

/-- The same environment with avio_open2 failing: the temp container is
not created. -/
def openEnvNoAvio : OpenEnv := { openEnvOk with avio_open_ok := false }

/-- A fresh session. -/
def p0Ex : Player :=
  { interrupted := 0, doQuit := false, lastTimestamp := 0, songPlayed := 0
    songDuration := 0, save_file := false, streamIdx := -1
    tmp_filename := "", save_complete := "", aoDev := false, fgraph := false
    cctx := false, fctx := false }

/-- Settings without a save directory. -/
def settingsNone : Settings := ⟨none⟩

/-- Settings with a save directory. -/
def settingsSave : Settings := ⟨some "d"⟩

/-- Concrete metadata. -/
def metaEx : Meta := ⟨"a", "b", "t"⟩

/-- An attempt whose stream reaches EOF before any packet. -/
def attemptEofEx : AttemptEnv :=
  { openEnv := openEnvOk, filterOk := true, deviceOk := true
    reads := [ReadResult.eof 0], interruptedAfter := 0, doQuitAfter := false }

/-- An attempt whose play loop exits with AVERROR_INVALIDDATA after one
good packet, without user interruption. -/
def attemptRetryEx : AttemptEnv :=
  { openEnv := openEnvOk, filterOk := true, deviceOk := true
    reads := [ReadResult.ok pktEx 1, ReadResult.err AVERROR_INVALIDDATA]
    interruptedAfter := 0, doQuitAfter := false }

/-! Helper lemmas. -/

theorem sanitizeTagList_eq (l : List Char) :
    sanitizeTagList l = l.flatMap specSanitizeChar := by
  induction l with
  | nil => simp [sanitizeTagList]
  | cons c cs ih =>
    by_cases h1 : c = '"'
    · subst h1
      simp [sanitizeTagList, specSanitizeChar, ih]
    · by_cases h2 : c = '/'
      · subst h2
        simp [sanitizeTagList, specSanitizeChar, ih]
      · simp [sanitizeTagList, specSanitizeChar, h1, h2, ih]

theorem sanitizeFilenameList_eq (l : List Char) :
    sanitizeFilenameList l = l.map sanitizeFilenameChar := by
  induction l with
  | nil => simp [sanitizeFilenameList]
  | cons c cs ih =>
    by_cases h1 : c = '/'
    · subst h1
      simp [sanitizeFilenameList, sanitizeFilenameChar, ih]
    · by_cases h2 : c = '$'
      · subst h2
        simp [sanitizeFilenameList, sanitizeFilenameChar, ih]
      · simp [sanitizeFilenameList, sanitizeFilenameChar, h1, h2, ih]

theorem openStream_success (s : Settings) (m : Meta) (env : OpenEnv) (p : Player) :
    (openStream s m env p).success = openSuccess env := by
  obtain ⟨sd⟩ := s
  obtain ⟨o1, o2, bs, o3, o4, o5, o6, d, tb, tb0, tex, av, wh⟩ := env
  cases o1 <;> cases o2 <;> cases bs <;> cases o3 <;> cases o4 <;> cases o5 <;> cases o6 <;>
    cases sd <;> simp [openStream, openSuccess]

theorem openStream_events (s : Settings) (m : Meta) (env : OpenEnv) (p : Player) (idx : Int)
    (hbs : env.best_stream = some idx) (h : openSuccess env = true) :
    (openStream s m env p).events =
      if 0 < p.lastTimestamp then [Ev.seek idx p.lastTimestamp] else [] := by
  obtain ⟨sd⟩ := s
  obtain ⟨o1, o2, bs, o3, o4, o5, o6, d, tb, tb0, tex, av, wh⟩ := env
  simp only [openSuccess, Bool.and_eq_true] at h
  obtain ⟨⟨⟨⟨⟨⟨h1, h2⟩, h3⟩, h4⟩, h5⟩, h6⟩, h7⟩ := h
  subst h1; subst h2; subst h4; subst h5; subst h6; subst h7
  simp only at hbs
  subst hbs
  cases sd <;> simp [openStream]

theorem openStream_events_cases (s : Settings) (m : Meta) (env : OpenEnv) (p : Player) :
    (openStream s m env p).events = [] ∨
      ∃ i t, (openStream s m env p).events = [Ev.seek i t] := by
  obtain ⟨sd⟩ := s
  obtain ⟨o1, o2, bs, o3, o4, o5, o6, d, tb, tb0, tex, av, wh⟩ := env
  cases o1 <;> cases o2 <;> cases bs <;> cases o3 <;> cases o4 <;> cases o5 <;> cases o6 <;>
    cases sd <;> simp [openStream] <;>
    (try (split <;> simp)) <;> omega

/-! C2: the blocking-abort hook. -/

/-- C2: for every value of the interrupted counter, intCb keeps blocking
when interrupted is 0, aborts and resets the counter when interrupted is
1, and sets doQuit and aborts when interrupted is at least 2. -/
theorem C2_intCb_semantics (s : IntState) :
    (s.interrupted = 0 → intCb s = (0, s)) ∧
    (s.interrupted = 1 → intCb s = (1, { s with interrupted := 0 })) ∧
    (2 ≤ s.interrupted → intCb s = (1, { s with doQuit := true })) := by
  refine ⟨fun h => ?_, fun h => ?_, fun h => ?_⟩
  · simp [intCb, h]
  · simp [intCb, h]
  · have h1 : s.interrupted > 1 := h
    simp [intCb, h1]

/-- Witness: intCb at interrupted = 1 aborts and resets the counter. -/
theorem C2_intCb_semantics_witness :
    intCb ⟨1, false⟩ = (1, ⟨0, false⟩) :=
  (C2_intCb_semantics ⟨1, false⟩).2.1 rfl

/-! C7: finish. -/

/-- C7: finish releases the device, filter graph, decoder and demuxer in
that order (exactly the open ones), is safe on any partial open state,
leaves every owned resource closed, and a second call has no further
effect. -/
theorem C7_finish_order_idempotent (p : Player) :
    (finish p).1.aoDev = false ∧ (finish p).1.fgraph = false ∧
    (finish p).1.cctx = false ∧ (finish p).1.fctx = false ∧
    (finish p).2 = finishOrder.filter (resOpen p) ∧
    finish (finish p).1 = ((finish p).1, []) := by
  obtain ⟨i, q, lt, sp, sd, sf, si, tf, sc, ao, fg, cc, fc⟩ := p
  cases ao <;> cases fg <;> cases cc <;> cases fc <;>
    simp [finish, finishOrder, resOpen, List.filter]

/-! C9: sanitization. -/

/-- C9 counterexample: the filename sanitization path (openStream lines
268-275) does not escape a double quote, contradicting the claim that
every sanitizing code path escapes it. -/
theorem C9_counterexample :
    sanitizeFilename "t\".aac" ≠ specFileSanitize "t\".aac" := by decide

/-- C9 amended: the artist, album and title sanitizations used for
directory components and shell-quoted arguments follow the claimed rules
(slash to space, double quote escaped, other bytes preserved, no dollar
handling is reachable there as claimed only for filenames); the filename
sanitization maps slash to space and dollar to S but leaves a double
quote, and every other byte, unchanged. -/
theorem C9_sanitize_amended :
    (∀ s : String, sanitizeTag s = specTagSanitize s) ∧
    (∀ s : String, (sanitizeFilename s).data = s.data.map sanitizeFilenameChar) ∧
    sanitizeFilename "a\"b" = "a\"b" := by
  refine ⟨fun s => ?_, fun s => ?_, by decide⟩
  · show String.mk (sanitizeTagList s.data) = String.mk (s.data.flatMap specSanitizeChar)
    rw [sanitizeTagList_eq]
  · show (String.mk (sanitizeFilenameList s.data)).data = s.data.map sanitizeFilenameChar
    rw [sanitizeFilenameList_eq]

/-! C5: the save_file flag. -/

/-- C5 counterexample: with a save directory configured, the final target
absent, and avio_open2 failing (the temp container not created),
openStream still leaves save_file true: the code never inspects the
muxer-setup results. -/
theorem C5_counterexample :
    (openStream settingsSave metaEx openEnvNoAvio p0Ex).p.save_file = true ∧
    openEnvNoAvio.avio_open_ok = false ∧
    settingsSave.save_dir.isSome = true ∧
    openEnvNoAvio.target_exists = false := by decide

/-- C5 amended: after a successful openStream, save_file is true exactly
when a save directory was configured and the final target path did not
already exist; the success of the temp-container creation is not
inspected and does not influence save_file. -/
theorem C5_save_file_amended (s : Settings) (m : Meta) (env : OpenEnv) (p : Player)
    (h : (openStream s m env p).success = true) :
    (openStream s m env p).p.save_file = (s.save_dir.isSome && !env.target_exists) := by
  rw [openStream_success] at h
  obtain ⟨sd⟩ := s
  obtain ⟨o1, o2, bs, o3, o4, o5, o6, d, tb, tb0, tex, av, wh⟩ := env
  simp only [openSuccess, Bool.and_eq_true] at h
  obtain ⟨⟨⟨⟨⟨⟨h1, h2⟩, h3⟩, h4⟩, h5⟩, h6⟩, h7⟩ := h
  subst h1; subst h2; subst h4; subst h5; subst h6; subst h7
  obtain ⟨idx, hbs⟩ := Option.isSome_iff_exists.mp h3
  subst hbs
  cases sd <;> cases tex <;> simp [openStream]

/-- Witness: C5 amended applied to a concrete successful openStream. -/
theorem C5_save_file_amended_witness :
    (openStream settingsSave metaEx openEnvOk p0Ex).p.save_file =
      (settingsSave.save_dir.isSome && !openEnvOk.target_exists) :=
  C5_save_file_amended settingsSave metaEx openEnvOk p0Ex (by decide)

/-! Play-loop trace lemmas. -/

theorem filterMap_replicate_none {α β : Type} (f : α → Option β) (a : α) (h : f a = none)
    (n : Nat) : List.filterMap f (List.replicate n a) = [] := by
  induction n with
  | zero => rfl
  | succ k ih => simp [List.replicate_succ, List.filterMap_cons, h, ih]

theorem teeOk_frame (cfg : PlayCfg) (l : List Ev) :
    teeOk cfg (Ev.frame :: l) = teeOk cfg l := rfl

theorem teeOk_skip (cfg : PlayCfg) (p : AVPacket) (l : List Ev) :
    teeOk cfg (Ev.skipPkt p :: l) = teeOk cfg l := rfl

theorem teeOk_send_mux (cfg : PlayCfg) (p q : AVPacket) (l : List Ev) :
    teeOk cfg (Ev.send p :: Ev.mux q :: l) =
      (decide (q = rescalePkt cfg p) && teeOk cfg l) := rfl

theorem teeOk_flush_mux (cfg : PlayCfg) (q : AVPacket) (l : List Ev) :
    teeOk cfg (Ev.flushDec :: Ev.mux q :: l) =
      (decide (q = rescalePkt cfg blankPacket) && teeOk cfg l) := rfl

theorem teeOk_replicate_frame (cfg : PlayCfg) (n : Nat) (l : List Ev) :
    teeOk cfg (List.replicate n Ev.frame ++ l) = teeOk cfg l := by
  induction n with
  | zero => rfl
  | succ k ih => rw [List.replicate_succ, List.cons_append, teeOk_frame, ih]

theorem teeOk_replicate (cfg : PlayCfg) (n : Nat) :
    teeOk cfg (List.replicate n Ev.frame) = true := by
  induction n with
  | zero => rfl
  | succ k ih => rw [List.replicate_succ, teeOk_frame]; exact ih

theorem sentPackets_send (p : AVPacket) (l : List Ev) :
    sentPackets (Ev.send p :: l) = p :: sentPackets l := rfl

theorem sentPackets_flushDec (l : List Ev) :
    sentPackets (Ev.flushDec :: l) = sentPackets l := rfl

theorem sentPackets_mux (q : AVPacket) (l : List Ev) :
    sentPackets (Ev.mux q :: l) = sentPackets l := rfl

theorem sentPackets_skipPkt (p : AVPacket) (l : List Ev) :
    sentPackets (Ev.skipPkt p :: l) = sentPackets l := rfl

theorem sentPackets_append (a b : List Ev) :
    sentPackets (a ++ b) = sentPackets a ++ sentPackets b := by
  simp [sentPackets, List.filterMap_append]

theorem sentPackets_replicate_frame (n : Nat) :
    sentPackets (List.replicate n Ev.frame) = [] :=
  filterMap_replicate_none _ _ rfl n

theorem sentPackets_muxEvts (cfg : PlayCfg) (p : AVPacket) :
    sentPackets (muxEvts cfg p) = [] := by
  unfold muxEvts; split <;> rfl

theorem muxedPackets_send (p : AVPacket) (l : List Ev) :
    muxedPackets (Ev.send p :: l) = muxedPackets l := rfl

theorem muxedPackets_flushDec (l : List Ev) :
    muxedPackets (Ev.flushDec :: l) = muxedPackets l := rfl

theorem muxedPackets_mux (q : AVPacket) (l : List Ev) :
    muxedPackets (Ev.mux q :: l) = q :: muxedPackets l := rfl

theorem muxedPackets_skipPkt (p : AVPacket) (l : List Ev) :
    muxedPackets (Ev.skipPkt p :: l) = muxedPackets l := rfl

theorem muxedPackets_append (a b : List Ev) :
    muxedPackets (a ++ b) = muxedPackets a ++ muxedPackets b := by
  simp [muxedPackets, List.filterMap_append]

theorem muxedPackets_replicate_frame (n : Nat) :
    muxedPackets (List.replicate n Ev.frame) = [] :=
  filterMap_replicate_none _ _ rfl n

theorem muxedPackets_muxEvts_true (cfg : PlayCfg) (p : AVPacket) (h : cfg.save_file = true) :
    muxedPackets (muxEvts cfg p) = [rescalePkt cfg p] := by
  simp [muxEvts, h]; rfl

theorem muxedPackets_muxEvts_false (cfg : PlayCfg) (p : AVPacket) (h : cfg.save_file = false) :
    muxedPackets (muxEvts cfg p) = [] := by
  simp [muxEvts, h]; rfl

theorem skippedPackets_send (p : AVPacket) (l : List Ev) :
    skippedPackets (Ev.send p :: l) = skippedPackets l := rfl

theorem skippedPackets_flushDec (l : List Ev) :
    skippedPackets (Ev.flushDec :: l) = skippedPackets l := rfl

theorem skippedPackets_mux (q : AVPacket) (l : List Ev) :
    skippedPackets (Ev.mux q :: l) = skippedPackets l := rfl

theorem skippedPackets_skipPkt (p : AVPacket) (l : List Ev) :
    skippedPackets (Ev.skipPkt p :: l) = p :: skippedPackets l := rfl

theorem skippedPackets_append (a b : List Ev) :
    skippedPackets (a ++ b) = skippedPackets a ++ skippedPackets b := by
  simp [skippedPackets, List.filterMap_append]

theorem skippedPackets_replicate_frame (n : Nat) :
    skippedPackets (List.replicate n Ev.frame) = [] :=
  filterMap_replicate_none _ _ rfl n

theorem skippedPackets_muxEvts (cfg : PlayCfg) (p : AVPacket) :
    skippedPackets (muxEvts cfg p) = [] := by
  unfold muxEvts; split <;> rfl

/-! C3: the tee-muxer write. -/

/-- C3 counterexample: on a concrete run with saving enabled, the muxer
write does not precede the decoder send; the trace violates the ordering
the claim states (write immediately after the read and before the send). -/
theorem C3_counterexample :
    teeBeforeSendOk cfgEx (playLoop cfgEx readsEx 0 0 0).events = false := by decide

/-- C3 amended: when saving is enabled, every muxer write is adjacent to
the decoder hand-off of the same iteration, but it follows the send
rather than preceding it (player.c sends at line 461 and writes at line
478); each written packet is the read packet rescaled from the codec
time base of input stream 0 to the muxer output stream time base, with
stream_index set to the muxer output stream id; the EOF flush iteration
also performs one such write with the blanked packet. -/
theorem C3_tee_amended (cfg : PlayCfg) (reads : List ReadResult) (ret : Int) (sp : ℚ)
    (lt : Int) (h : cfg.save_file = true) :
    teeOk cfg (playLoop cfg reads ret sp lt).events = true := by
  induction reads generalizing ret sp lt with
  | nil => simp [playLoop, teeOk]
  | cons hd tl ih =>
    cases hd with
    | eof ff =>
      simp only [playLoop, muxEvts, h, if_true, List.cons_append, List.nil_append]
      rw [teeOk_flush_mux, teeOk_replicate]
      simp
    | err c =>
      by_cases hb : blankPacket.stream_index = cfg.streamIdx
      · simp [playLoop, hb, teeOk]
      · simp only [playLoop, hb, if_false]
        rw [teeOk_skip]
        exact ih c sp lt
    | ok p n =>
      by_cases hm : p.stream_index = cfg.streamIdx
      · simp only [playLoop, hm, eq_self_iff_true, if_true, muxEvts, h, List.cons_append,
          List.nil_append]
        rw [teeOk_send_mux, teeOk_replicate_frame]
        simp [ih]
      · simp only [playLoop, hm, if_false]
        rw [teeOk_skip]
        exact ih 0 sp lt

/-- Witness: C3 amended on the concrete run used by the counterexample. -/
theorem C3_tee_amended_witness :
    teeOk cfgEx (playLoop cfgEx readsEx 0 0 0).events = true :=
  C3_tee_amended cfgEx readsEx 0 0 0 rfl

/-! C4: packet routing. -/

/-- C4 counterexample: on a concrete run with saving enabled the muxer
receives more writes than there are packets sent to the decoder (the EOF
flush iteration writes the blanked packet), so the muxer does see writes
other than the per-packet ones. -/
theorem C4_counterexample :
    (muxedPackets (playLoop cfgEx readsEx 0 0 0).events).length ≠
      (sentPackets (playLoop cfgEx readsEx 0 0 0).events).length := by decide

/-- C4 amended: every packet successfully read is either skipped (foreign
stream, or a blanked error packet whose stream index differs from the
selected one) or sent to the decoder exactly once, in read order; with
the tee muxer active, the muxer receives exactly the sent packets,
rescaled, each once and in order, plus one write of the rescaled blanked
packet when the loop reaches the EOF flush; with the muxer inactive it
receives nothing. -/
theorem C4_packets_amended (cfg : PlayCfg) (reads : List ReadResult) (ret : Int) (sp : ℚ)
    (lt : Int) :
    sentPackets (playLoop cfg reads ret sp lt).events = expectedSent cfg reads ∧
    skippedPackets (playLoop cfg reads ret sp lt).events = expectedSkipped cfg reads ∧
    (cfg.save_file = true →
      muxedPackets (playLoop cfg reads ret sp lt).events =
        (expectedSent cfg reads).map (rescalePkt cfg) ++
          List.replicate (expectedFlush cfg reads) (rescalePkt cfg blankPacket)) ∧
    (cfg.save_file = false → muxedPackets (playLoop cfg reads ret sp lt).events = []) := by
  induction reads generalizing ret sp lt with
  | nil =>
    refine ⟨rfl, rfl, fun _ => rfl, fun _ => rfl⟩
  | cons hd tl ih =>
    cases hd with
    | eof ff =>
      refine ⟨?_, ?_, fun hs => ?_, fun hs => ?_⟩
      · simp only [playLoop, expectedSent, sentPackets_flushDec, sentPackets_append,
          sentPackets_muxEvts, sentPackets_replicate_frame, List.nil_append]
      · simp only [playLoop, expectedSkipped, skippedPackets_flushDec, skippedPackets_append,
          skippedPackets_muxEvts, skippedPackets_replicate_frame, List.nil_append]
      · simp only [playLoop, expectedSent, expectedFlush, muxedPackets_flushDec,
          muxedPackets_append, muxedPackets_muxEvts_true cfg _ hs,
          muxedPackets_replicate_frame, List.map_nil, List.nil_append, List.append_nil,
          List.replicate_one]
      · simp only [playLoop, muxedPackets_flushDec, muxedPackets_append,
          muxedPackets_muxEvts_false cfg _ hs, muxedPackets_replicate_frame,
          List.nil_append, List.append_nil]
    | err c =>
      by_cases hb : blankPacket.stream_index = cfg.streamIdx
      · refine ⟨?_, ?_, fun hs => ?_, fun hs => ?_⟩ <;>
          simp [playLoop, hb, sentPackets, skippedPackets, muxedPackets, expectedSent,
            expectedSkipped, expectedFlush]
      · obtain ⟨ih1, ih2, ih3, ih4⟩ := ih c sp lt
        refine ⟨?_, ?_, fun hs => ?_, fun hs => ?_⟩
        · simp only [playLoop, hb, if_false, expectedSent, sentPackets_skipPkt, ih1]
        · simp only [playLoop, hb, if_false, expectedSkipped, skippedPackets_skipPkt, ih2]
        · simp only [playLoop, hb, if_false, expectedSent, expectedFlush,
            muxedPackets_skipPkt, ih3 hs]
        · simp only [playLoop, hb, if_false, muxedPackets_skipPkt, ih4 hs]
    | ok p n =>
      by_cases hm : p.stream_index = cfg.streamIdx
      · obtain ⟨ih1, ih2, ih3, ih4⟩ := ih AVERROR_EAGAIN (av_q2d cfg.stTb * (p.pts : ℚ)) p.pts
        refine ⟨?_, ?_, fun hs => ?_, fun hs => ?_⟩
        · simp only [playLoop, hm, eq_self_iff_true, if_true, expectedSent,
            sentPackets_send, sentPackets_append, sentPackets_muxEvts,
            sentPackets_replicate_frame, List.nil_append, ih1]
        · simp only [playLoop, hm, eq_self_iff_true, if_true, expectedSkipped,
            skippedPackets_send, skippedPackets_append, skippedPackets_muxEvts,
            skippedPackets_replicate_frame, List.nil_append, ih2]
        · simp only [playLoop, hm, eq_self_iff_true, if_true, expectedSent, expectedFlush,
            muxedPackets_send, muxedPackets_append, muxedPackets_muxEvts_true cfg _ hs,
            muxedPackets_replicate_frame, List.nil_append, ih3 hs, List.map_cons,
            List.cons_append]
        · simp only [playLoop, hm, eq_self_iff_true, if_true, muxedPackets_send,
            muxedPackets_append, muxedPackets_muxEvts_false cfg _ hs,
            muxedPackets_replicate_frame, List.nil_append, ih4 hs]
      · obtain ⟨ih1, ih2, ih3, ih4⟩ := ih 0 sp lt
        refine ⟨?_, ?_, fun hs => ?_, fun hs => ?_⟩
        · simp only [playLoop, hm, if_false, expectedSent, sentPackets_skipPkt, ih1]
        · simp only [playLoop, hm, if_false, expectedSkipped, skippedPackets_skipPkt, ih2]
        · simp only [playLoop, hm, if_false, expectedSent, expectedFlush,
            muxedPackets_skipPkt, ih3 hs]
        · simp only [playLoop, hm, if_false, muxedPackets_skipPkt, ih4 hs]

/-- Witness: C4 amended on a concrete run with saving enabled. -/
theorem C4_packets_amended_witness :
    muxedPackets (playLoop cfgEx readsEx 0 0 0).events =
      (expectedSent cfgEx readsEx).map (rescalePkt cfgEx) ++
        List.replicate (expectedFlush cfgEx readsEx) (rescalePkt cfgEx blankPacket) :=
  (C4_packets_amended cfgEx readsEx 0 0 0).2.2.1 rfl

/-! Worker-level helper lemmas. -/

theorem attemptOpen_eq (s : Settings) (m : Meta) (a : AttemptEnv) (p : Player) :
    attemptOpen s m a p = openStream s m a.openEnv p := rfl

theorem countEv_append (t : Ev) (a b : List Ev) :
    countEv t (a ++ b) = countEv t a + countEv t b := by
  induction a with
  | nil => simp [countEv]
  | cons e r ih => simp [countEv, ih, Nat.add_assoc]

theorem countEv_eq_zero (t : Ev) (l : List Ev) (h : ∀ e ∈ l, e ≠ t) :
    countEv t l = 0 := by
  induction l with
  | nil => rfl
  | cons e r ih =>
    have he : e ≠ t := h e (List.mem_cons_self _ _)
    simp [countEv, he]
    exact ih fun x hx => h x (List.mem_cons_of_mem _ hx)

theorem finish_events_eq (p : Player) : (finish p).2 = finishOrder.filter (resOpen p) := by
  obtain ⟨i, q, lt, sp, sd, sf, si, tf, sc, ao, fg, cc, fc⟩ := p
  cases ao <;> cases fg <;> cases cc <;> cases fc <;>
    simp [finish, finishOrder, resOpen, List.filter]

theorem finish_isLoopEv (p : Player) : ∀ e ∈ (finish p).2, isLoopEv e = true := by
  intro e he
  rw [finish_events_eq] at he
  have hmem := List.mem_of_mem_filter he
  simp only [finishOrder, List.mem_cons, List.not_mem_nil, or_false] at hmem
  rcases hmem with rfl | rfl | rfl | rfl <;> rfl

theorem openStream_isLoopEv (s : Settings) (m : Meta) (env : OpenEnv) (p : Player) :
    ∀ e ∈ (openStream s m env p).events, isLoopEv e = true := by
  intro e he
  rcases openStream_events_cases s m env p with hc | ⟨i, t, hc⟩
  · rw [hc] at he
    simp at he
  · rw [hc] at he
    simp at he
    subst he
    rfl

theorem playLoop_isLoopEv (cfg : PlayCfg) (reads : List ReadResult) :
    ∀ ret sp lt e, e ∈ (playLoop cfg reads ret sp lt).events → isLoopEv e = true := by
  induction reads with
  | nil => intro ret sp lt e he; simp [playLoop] at he
  | cons hd tl ih =>
    intro ret sp lt e he
    cases hd with
    | eof ff =>
      cases hsv : cfg.save_file with
      | true =>
        simp [playLoop, muxEvts, hsv, List.mem_append, List.mem_replicate] at he
        rcases he with rfl | rfl | ⟨-, rfl⟩ <;> rfl
      | false =>
        simp [playLoop, muxEvts, hsv, List.mem_replicate] at he
        rcases he with rfl | ⟨-, rfl⟩ <;> rfl
    | err c =>
      by_cases hb : blankPacket.stream_index = cfg.streamIdx
      · simp [playLoop, hb] at he
      · simp only [playLoop, hb, if_false, List.mem_cons] at he
        rcases he with rfl | hmem
        · rfl
        · exact ih _ _ _ e hmem
    | ok p n =>
      by_cases hm : p.stream_index = cfg.streamIdx
      · cases hsv : cfg.save_file with
        | true =>
          simp [playLoop, hm, muxEvts, hsv, List.mem_append, List.mem_replicate] at he
          rcases he with rfl | rfl | ⟨-, rfl⟩ | hmem
          · rfl
          · rfl
          · rfl
          · exact ih _ _ _ e hmem
        | false =>
          simp [playLoop, hm, muxEvts, hsv, List.mem_append, List.mem_replicate] at he
          rcases he with rfl | ⟨-, rfl⟩ | hmem
          · rfl
          · rfl
          · exact ih _ _ _ e hmem
      · simp only [playLoop, hm, if_false, List.mem_cons] at he
        rcases he with rfl | hmem
        · rfl
        · exact ih _ _ _ e hmem

theorem threadLoop_isLoopEv (s : Settings) (m : Meta) (attempts : List AttemptEnv) :
    ∀ p pret e, e ∈ (threadLoop s m attempts p pret).events → isLoopEv e = true := by
  induction attempts with
  | nil => intro p pret e he; simp [threadLoop] at he
  | cons a rest ih =>
    intro p pret e he
    simp only [threadLoop] at he
    by_cases ho : (attemptOpen s m a p).success = true
    · rw [if_pos ho] at he
      by_cases hfd : (a.filterOk && a.deviceOk) = true
      · rw [if_pos hfd] at he
        by_cases hr : (attemptPlay s m a p).ret = AVERROR_INVALIDDATA ∧
            (attemptPost s m a p).interrupted = 0
        · rw [if_pos hr] at he
          simp only [List.mem_append] at he
          rcases he with ((h1 | h1) | h1) | h1
          · exact openStream_isLoopEv s m a.openEnv p e h1
          · exact playLoop_isLoopEv _ _ _ _ _ e h1
          · exact finish_isLoopEv _ e h1
          · exact ih _ _ e h1
        · rw [if_neg hr] at he
          simp only [List.mem_append] at he
          rcases he with (h1 | h1) | h1
          · exact openStream_isLoopEv s m a.openEnv p e h1
          · exact playLoop_isLoopEv _ _ _ _ _ e h1
          · exact finish_isLoopEv _ e h1
      · rw [if_neg hfd] at he
        simp only [List.mem_append] at he
        rcases he with h1 | h1
        · exact openStream_isLoopEv s m a.openEnv p e h1
        · exact finish_isLoopEv _ e h1
    · rw [if_neg ho] at he
      simp only [List.mem_append] at he
      rcases he with h1 | h1
      · exact openStream_isLoopEv s m a.openEnv p e h1
      · exact finish_isLoopEv _ e h1

theorem threadLoop_no_tail_events (s : Settings) (m : Meta) (attempts : List AttemptEnv)
    (p : Player) (pret : PlayerRet) (t : Ev) (ht : isLoopEv t = false) :
    countEv t (threadLoop s m attempts p pret).events = 0 :=
  countEv_eq_zero _ _ fun e he hh => by
    have hl := threadLoop_isLoopEv s m attempts p pret e he
    subst hh
    rw [ht] at hl
    exact Bool.noConfusion hl

/-! C1: the soft-fail retry of the worker. -/

/-- C1: when play returns AVERROR_INVALIDDATA and interrupted is zero,
the worker closes everything (finish) and re-enters the
open/filter/device/play cycle, with lastTimestamp preserved through
finish into the next attempt; when play returns any other value, or
interrupted is non-zero, the loop ends after finish and no further
attempt is made; and every successful openStream seeks the demuxer to
lastTimestamp on the selected stream exactly when lastTimestamp is
positive. -/
theorem C1_invaliddata_retry (s : Settings) (m : Meta) (p : Player) (pret : PlayerRet)
    (a : AttemptEnv) (rest : List AttemptEnv)
    (ho : (attemptOpen s m a p).success = true)
    (hf : a.filterOk = true) (hd : a.deviceOk = true) :
    ((attemptPlay s m a p).ret = AVERROR_INVALIDDATA ∧ a.interruptedAfter = 0 →
      threadLoop s m (a :: rest) p pret =
        ⟨(threadLoop s m rest (finish (attemptPost s m a p)).1 pret).p,
         (attemptOpen s m a p).events ++ (attemptPlay s m a p).events ++
           (finish (attemptPost s m a p)).2 ++
           (threadLoop s m rest (finish (attemptPost s m a p)).1 pret).events,
         (threadLoop s m rest (finish (attemptPost s m a p)).1 pret).pret⟩ ∧
      (finish (attemptPost s m a p)).1.lastTimestamp = (attemptPlay s m a p).lastTimestamp) ∧
    ((attemptPlay s m a p).ret ≠ AVERROR_INVALIDDATA ∨ a.interruptedAfter ≠ 0 →
      threadLoop s m (a :: rest) p pret =
        ⟨(finish (attemptPost s m a p)).1,
         (attemptOpen s m a p).events ++ (attemptPlay s m a p).events ++
           (finish (attemptPost s m a p)).2,
         pret⟩) ∧
    (∀ (env : OpenEnv) (q : Player) (idx : Int), openSuccess env = true →
      env.best_stream = some idx →
      (openStream s m env q).events =
        if 0 < q.lastTimestamp then [Ev.seek idx q.lastTimestamp] else []) := by
  have hfd : (a.filterOk && a.deviceOk) = true := by rw [hf, hd]; rfl
  refine ⟨fun hc => ⟨?_, rfl⟩, fun hc => ?_,
    fun env q idx h1 h2 => openStream_events s m env q idx h2 h1⟩
  · have hcnd : (attemptPlay s m a p).ret = AVERROR_INVALIDDATA ∧
        (attemptPost s m a p).interrupted = 0 := ⟨hc.1, hc.2⟩
    simp only [threadLoop]
    rw [if_pos ho, if_pos hfd, if_pos hcnd]
  · have hcnd : ¬((attemptPlay s m a p).ret = AVERROR_INVALIDDATA ∧
        (attemptPost s m a p).interrupted = 0) := by
      intro hh
      rcases hc with h1 | h2
      · exact h1 hh.1
      · exact h2 hh.2
    simp only [threadLoop]
    rw [if_pos ho, if_pos hfd, if_neg hcnd]

/-- Witness: in a concrete retry run, lastTimestamp survives finish. -/
theorem C1_invaliddata_retry_witness :
    (finish (attemptPost settingsNone metaEx attemptRetryEx p0Ex)).1.lastTimestamp =
      (attemptPlay settingsNone metaEx attemptRetryEx p0Ex).lastTimestamp :=
  ((C1_invaliddata_retry settingsNone metaEx p0Ex PlayerRet.retOk attemptRetryEx []
    (by decide) rfl rfl).1 ⟨by decide, rfl⟩).2

/-! C10: non-INVALIDDATA play errors end the worker with OK. -/

/-- C10: if play exits with any value other than AVERROR_INVALIDDATA
after a successful open/filter/device sequence, the worker does not
retry (the remaining attempt environments are never consumed) and its
result is PLAYER_RET_OK, the same as on clean completion; and SOFTFAIL
can only arise from an attempt whose openStream failed. -/
theorem C10_error_no_retry :
    (∀ (s : Settings) (m : Meta) (p : Player) (a : AttemptEnv) (rest : List AttemptEnv),
      (attemptOpen s m a p).success = true → a.filterOk = true → a.deviceOk = true →
      (attemptPlay s m a p).ret ≠ AVERROR_INVALIDDATA →
      (threadLoop s m (a :: rest) p PlayerRet.retOk).pret = PlayerRet.retOk ∧
      threadLoop s m (a :: rest) p PlayerRet.retOk = threadLoop s m [a] p PlayerRet.retOk) ∧
    (∀ (s : Settings) (m : Meta) (attempts : List AttemptEnv) (p : Player) (pret : PlayerRet),
      (threadLoop s m attempts p pret).pret = PlayerRet.softfail →
      pret = PlayerRet.softfail ∨ ∃ a, a ∈ attempts ∧ openSuccess a.openEnv = false) := by
  constructor
  · intro s m p a rest ho hf hd hr
    have hfd : (a.filterOk && a.deviceOk) = true := by rw [hf, hd]; rfl
    have hcnd : ¬((attemptPlay s m a p).ret = AVERROR_INVALIDDATA ∧
        (attemptPost s m a p).interrupted = 0) := fun hh => hr hh.1
    have e1 : threadLoop s m (a :: rest) p PlayerRet.retOk =
        ⟨(finish (attemptPost s m a p)).1,
         (attemptOpen s m a p).events ++ (attemptPlay s m a p).events ++
           (finish (attemptPost s m a p)).2,
         PlayerRet.retOk⟩ := by
      simp only [threadLoop]
      rw [if_pos ho, if_pos hfd, if_neg hcnd]
    have e2 : threadLoop s m [a] p PlayerRet.retOk =
        ⟨(finish (attemptPost s m a p)).1,
         (attemptOpen s m a p).events ++ (attemptPlay s m a p).events ++
           (finish (attemptPost s m a p)).2,
         PlayerRet.retOk⟩ := by
      simp only [threadLoop]
      rw [if_pos ho, if_pos hfd, if_neg hcnd]
    exact ⟨by rw [e1], by rw [e1, e2]⟩
  · intro s m attempts
    induction attempts with
    | nil =>
      intro p pret h
      exact Or.inl h
    | cons a rest ih =>
      intro p pret h
      by_cases ho : (attemptOpen s m a p).success = true
      · by_cases hfd : (a.filterOk && a.deviceOk) = true
        · by_cases hr : (attemptPlay s m a p).ret = AVERROR_INVALIDDATA ∧
              (attemptPost s m a p).interrupted = 0
          · have e1 : (threadLoop s m (a :: rest) p pret).pret =
                (threadLoop s m rest (finish (attemptPost s m a p)).1 pret).pret := by
              simp only [threadLoop]
              rw [if_pos ho, if_pos hfd, if_pos hr]
            rw [e1] at h
            rcases ih (finish (attemptPost s m a p)).1 pret h with h1 | ⟨b, hb, hob⟩
            · exact Or.inl h1
            · exact Or.inr ⟨b, List.mem_cons_of_mem _ hb, hob⟩
          · have e1 : (threadLoop s m (a :: rest) p pret).pret = pret := by
              simp only [threadLoop]
              rw [if_pos ho, if_pos hfd, if_neg hr]
            rw [e1] at h
            exact Or.inl h
        · have e1 : (threadLoop s m (a :: rest) p pret).pret = PlayerRet.hardfail := by
            simp only [threadLoop]
            rw [if_pos ho, if_neg hfd]
          rw [e1] at h
          exact PlayerRet.noConfusion h
      · refine Or.inr ⟨a, List.mem_cons_self _ _, ?_⟩
        cases hcase : openSuccess a.openEnv
        · rfl
        · exact absurd (by rw [attemptOpen_eq, openStream_success, hcase]) ho

/-- Witness: a concrete run ending in AVERROR_EOF returns OK and ignores
the remaining attempt environment. -/
theorem C10_error_no_retry_witness :
    (threadLoop settingsNone metaEx [attemptEofEx, attemptEofEx] p0Ex PlayerRet.retOk).pret =
      PlayerRet.retOk :=
  (C10_error_no_retry.1 settingsNone metaEx p0Ex attemptEofEx [attemptEofEx]
    (by decide) rfl rfl (by decide)).1

/-! C6: the trailer write. -/

/-- C6: the muxer trailer is written exactly once per session and only
when the session completed with save_file set and without doQuit; when
doQuit is set no trailer is written and neither external transcode is
invoked. -/
theorem C6_trailer_once (s : Settings) (m : Meta) (attempts : List AttemptEnv) (p0 : Player) :
    ((barPlayerThread s m attempts p0).p.doQuit = true →
      countEv Ev.writeTrailer (barPlayerThread s m attempts p0).events = 0 ∧
      countEv Ev.transcodeFfmpeg (barPlayerThread s m attempts p0).events = 0 ∧
      countEv Ev.transcodeLame (barPlayerThread s m attempts p0).events = 0) ∧
    countEv Ev.writeTrailer (barPlayerThread s m attempts p0).events ≤ 1 ∧
    ((barPlayerThread s m attempts p0).p.save_file = true →
      (barPlayerThread s m attempts p0).p.doQuit = false →
      countEv Ev.writeTrailer (barPlayerThread s m attempts p0).events = 1) := by
  have hz1 : countEv Ev.writeTrailer (threadLoop s m attempts p0 PlayerRet.retOk).events = 0 :=
    threadLoop_no_tail_events s m attempts p0 PlayerRet.retOk Ev.writeTrailer rfl
  have hz2 : countEv Ev.transcodeFfmpeg
      (threadLoop s m attempts p0 PlayerRet.retOk).events = 0 :=
    threadLoop_no_tail_events s m attempts p0 PlayerRet.retOk Ev.transcodeFfmpeg rfl
  have hz3 : countEv Ev.transcodeLame
      (threadLoop s m attempts p0 PlayerRet.retOk).events = 0 :=
    threadLoop_no_tail_events s m attempts p0 PlayerRet.retOk Ev.transcodeLame rfl
  by_cases hb : ((threadLoop s m attempts p0 PlayerRet.retOk).p.save_file &&
      !(threadLoop s m attempts p0 PlayerRet.retOk).p.doQuit) = true
  · have e1 : barPlayerThread s m attempts p0 =
        ⟨(threadLoop s m attempts p0 PlayerRet.retOk).p,
         (threadLoop s m attempts p0 PlayerRet.retOk).events ++
           [Ev.writeTrailer, Ev.transcodeFfmpeg, Ev.transcodeLame],
         (threadLoop s m attempts p0 PlayerRet.retOk).pret⟩ := by
      simp only [barPlayerThread]
      rw [if_pos hb]
    rw [e1]
    dsimp only
    rw [Bool.and_eq_true] at hb
    obtain ⟨hsv, hnd⟩ := hb
    refine ⟨fun hq => ?_, ?_, fun hs hq => ?_⟩
    · rw [hq] at hnd
      simp at hnd
    · rw [countEv_append, hz1]
      simp [countEv]
    · rw [countEv_append, hz1]
      simp [countEv]
  · have e1 : barPlayerThread s m attempts p0 =
        threadLoop s m attempts p0 PlayerRet.retOk := by
      simp only [barPlayerThread]
      rw [if_neg hb]
    rw [e1]
    refine ⟨fun hq => ⟨hz1, hz2, hz3⟩, by rw [hz1]; exact Nat.zero_le 1, fun hs hq => ?_⟩
    exact absurd (by rw [hs, hq]; rfl) hb

/-- Witness: a concrete completed session with saving enabled and no
quit writes exactly one trailer. -/
theorem C6_trailer_once_witness :
    countEv Ev.writeTrailer
      (barPlayerThread settingsSave metaEx [attemptEofEx] p0Ex).events = 1 :=
  (C6_trailer_once settingsSave metaEx [attemptEofEx] p0Ex).2.2 (by decide) (by decide)

/-! C8: EOF before any packet. -/

/-- C8: on a stream that reaches EOF before any packet, the worker does
return PLAYER_RET_OK, but songPlayed is not 0: the EOF iteration of the
play loop (player.c line 527) runs with the blanked packet and stores
av_q2d(time base) times AV_NOPTS_VALUE, a large negative value, into
songPlayed, contradicting the claim (and the spec data model, which
requires song_played to be non-negative seconds). -/
theorem C8_eof_songPlayed_bug :
    (barPlayerThread settingsNone metaEx [attemptEofEx] p0Ex).pret = PlayerRet.retOk ∧
    (barPlayerThread settingsNone metaEx [attemptEofEx] p0Ex).p.songPlayed < 0 ∧
    (barPlayerThread settingsNone metaEx [attemptEofEx] p0Ex).p.songPlayed ≠ 0 := by
  norm_num [barPlayerThread, threadLoop, attemptOpen, attemptPlay, attemptPost, openStream,
    play, playLoop, mkPlayCfg, finish, muxEvts, settingsNone, metaEx, attemptEofEx, openEnvOk,
    p0Ex, tbEx, blankPacket, AV_NOPTS_VALUE, AVERROR_EOF, AVERROR_INVALIDDATA, av_q2d]

end PianobarSave
